import Mathlib

/-!
Shallow embedding of the MCP registry control plane.

Sources embedded here:
- `src/internal/service/registry_service.go` : the registry service
  (`createServerInTransaction`, `validateNoDuplicateRemoteURLs`,
  `updateServerInTransaction`, `updateServerStatusInTransaction`,
  `updateAllVersionsStatusInTransaction`, `ListServers`).
- `src/unnamed/part_002` (package `v0`, status handlers) : the pure
  status-transition validators `validateStatusTransition` and
  `validateBulkStatusTransition`.

The `database`, `validators` and `model` packages are not part of the
source tree; the service is therefore embedded parametrically: each
database or validator call is a field of an oracle structure `Db`
supplying its return value, and every workflow returns, alongside its
result, the trace of calls it performed (a `List DbEvent`), so ordering
properties of the workflows are statable.
-/

namespace Registry

/-- Server lifecycle status. Modelled from the spec: `model.Status` is a
string type; its three values are fixed by the API enum
`active,deprecated,deleted` visible in the handler source. -/
abbrev Status := String

def StatusActive : Status := "active"

def StatusDeprecated : Status := "deprecated"

def StatusDeleted : Status := "deleted"

/-- A remote endpoint `{type, url}` advertised by a server version. -/
structure Remote where
  rtype : String
  url : String
deriving DecidableEq, Repr

/-- Server descriptor (`apiv0.ServerJSON`): only the fields the embedded
workflows inspect (name, version, remotes); the rest of the descriptor is
opaque to the control plane. -/
structure ServerJSON where
  name : String
  version : String
  remotes : List Remote
deriving DecidableEq, Repr

/-- Official registry metadata (`apiv0.RegistryExtensions`). Timestamps are
naturals; the Go zero time is `0`. -/
structure RegistryExtensions where
  status : Status
  statusMessage : Option String
  statusChangedAt : Nat
  publishedAt : Nat
  updatedAt : Nat
  isLatest : Bool
deriving DecidableEq, Repr

/-- The `_meta` block of a server response; `official` is
`Meta.Official` (nil pointer = `none`). -/
structure ResponseMeta where
  official : Option RegistryExtensions
deriving DecidableEq, Repr

/-- `apiv0.ServerResponse`: a stored row as returned by the store. -/
structure ServerResponse where
  server : ServerJSON
  meta : ResponseMeta
deriving DecidableEq, Repr

/-- `service.StatusChangeRequest`. -/
structure StatusChangeRequest where
  newStatus : Status
  statusMessage : Option String
deriving DecidableEq, Repr

/-- `v0.UpdateServerStatusBody`: the PATCH body. -/
structure UpdateServerStatusBody where
  status : String
  statusMessage : Option String
deriving DecidableEq, Repr

/-- `database.ServerFilter`, restricted to the fields the embedded
workflows construct. -/
structure ServerFilter where
  name : Option String
  remoteURL : Option String
  includeDeleted : Option Bool
deriving DecidableEq, Repr

/-- Errors crossing the service boundary. Modelled from the spec: the
`database` package sentinels (`ErrNotFound`, `ErrMaxServersReached`,
`ErrInvalidVersion`) plus the dynamic errors the service builds with
`fmt.Errorf` (`remoteURLConflict` renders as
`remote URL <url> is already used by server <name>`; `wrapped` is
`fmt.Errorf` with `%w`). -/
inductive RegError where
  | notFound
  | maxServersReached
  | invalidVersion
  | remoteURLConflict (url : String) (serverName : String)
  | wrapped (msg : String) (inner : RegError)
  | other (msg : String)
deriving DecidableEq, Repr

/-! ## Status-transition validators (src/unnamed/part_002) -/

/-- `validateStatusTransition` from the status handler source: returns
`none` when the transition is allowed and `some message` for the
BadRequest error otherwise. -/
def validateStatusTransition (currentServer : ServerResponse)
    (newStatus : Status) (body : UpdateServerStatusBody) : Option String :=
  let validStatuses : Status → Bool := fun s =>
    s == StatusActive || s == StatusDeprecated || s == StatusDeleted
  if !validStatuses newStatus then
    some ("Invalid status: " ++ newStatus ++ ". Must be one of: active, deprecated, deleted")
  else if newStatus == StatusActive && body.statusMessage.isSome then
    some "status_message cannot be provided when setting status to active"
  else
    match currentServer.meta.official with
    | none => none
    | some official =>
      let currentStatus := official.status
      let currentMessage := official.statusMessage
      let newMessage := body.statusMessage
      let statusChanges := currentStatus != newStatus
      let messageChanges := (currentMessage.isNone != newMessage.isNone) ||
        (match currentMessage, newMessage with
         | some c, some n => c != n
         | _, _ => false)
      if statusChanges || messageChanges then none
      else some "No changes to apply: status and message are already set to the provided values"

/-- `validateBulkStatusTransition` from the status handler source: valid
iff some version accepts, rejecting with the bulk no-op message
otherwise; an empty list is accepted. -/
def validateBulkStatusTransition (versions : List ServerResponse)
    (newStatus : Status) (body : UpdateServerStatusBody) : Option String :=
  if versions.isEmpty then none
  else if versions.any (fun version => (validateStatusTransition version newStatus body).isNone) then
    none
  else some "No changes to apply: all versions already have the requested status and message"

/-! ## Store oracle and call traces -/

/-- One call performed by a service workflow, with its arguments. Lock,
read and write calls of `database.Database` plus the two validator
entry points invoked by the service. -/
inductive DbEvent where
  | validatePublish (req : ServerJSON)
  | validateUpdate (req : ServerJSON) (skipRegistryValidation : Bool)
  | acquirePublishLock (name : String)
  | listServers (filter : ServerFilter) (cursor : String) (limit : Int)
  | countServerVersions (name : String)
  | checkVersionExists (name : String) (version : String)
  | getCurrentLatestVersion (name : String)
  | getServerByNameAndVersion (name : String) (version : String) (includeDeleted : Bool)
  | unmarkAsLatest (name : String)
  | createServer (req : ServerJSON) (officialMeta : RegistryExtensions)
  | updateServer (name : String) (version : String) (req : ServerJSON)
  | setServerStatus (name : String) (version : String) (status : Status) (message : Option String)
  | setAllVersionsStatus (name : String) (status : Status) (message : Option String)
deriving DecidableEq, Repr

/-- The advisory-lock acquisition call. -/
def DbEvent.isLock : DbEvent → Bool
  | .acquirePublishLock _ => true
  | _ => false

/-- Database writes: row insertion or mutation. -/
def DbEvent.isWrite : DbEvent → Bool
  | .unmarkAsLatest _ => true
  | .createServer _ _ => true
  | .updateServer _ _ _ => true
  | .setServerStatus _ _ _ _ => true
  | .setAllVersionsStatus _ _ _ => true
  | _ => false

/-- Modelled from the spec: oracle for the `database.Database` store and
the `validators` package, neither of which is in the source tree. Each
field supplies the return value of the corresponding call; calls whose Go
signature returns a value even alongside an error (`CountServerVersions`,
`GetCurrentLatestVersion`) are pairs, the rest are `Except` or
`Option RegError` exactly as the service consumes them. -/
structure Db where
  validatePublishRequest : ServerJSON → Option RegError
  validateUpdateRequest : ServerJSON → Bool → Option RegError
  acquirePublishLock : String → Option RegError
  listServers : ServerFilter → String → Int → Except RegError (List ServerResponse × String)
  countServerVersions : String → Nat × Option RegError
  checkVersionExists : String → String → Except RegError Bool
  getCurrentLatestVersion : String → Option ServerResponse × Option RegError
  getServerByNameAndVersion : String → String → Bool → Except RegError ServerResponse
  unmarkAsLatest : String → Option RegError
  createServer : ServerJSON → RegistryExtensions → Except RegError ServerResponse
  updateServer : String → String → ServerJSON → Except RegError ServerResponse
  setServerStatus : String → String → Status → Option String → Except RegError ServerResponse
  setAllVersionsStatus : String → Status → Option String → Except RegError (List ServerResponse)

/-! ## Registry service (src/internal/service/registry_service.go) -/

/-- `maxServerVersionsPerServer` (registry_service.go line 18). -/
def maxServerVersionsPerServer : Nat := 10000

/-- The filter `&database.ServerFilter{RemoteURL: &remote.URL}` built in
`validateNoDuplicateRemoteURLs`. -/
def urlFilter (url : String) : ServerFilter :=
  { name := none, remoteURL := some url, includeDeleted := none }

/-- The inner loop of `validateNoDuplicateRemoteURLs`: first returned row
whose name differs from the candidate name. -/
def firstConflict (name : String) : List ServerResponse → Option ServerResponse
  | [] => none
  | s :: rest => if s.server.name ≠ name then some s else firstConflict name rest

/-- The outer loop of `validateNoDuplicateRemoteURLs` over the remotes:
for each remote URL, list servers with that URL (limit 1000) and fail on
the first row with a different name. Returns the trace of store calls
performed and `none` on success. -/
def checkRemotes (db : Db) (name : String) : List Remote → List DbEvent × Option RegError
  | [] => ([], none)
  | remote :: rest =>
    let ev := DbEvent.listServers (urlFilter remote.url) "" 1000
    match db.listServers (urlFilter remote.url) "" 1000 with
    | .error e => ([ev], some (RegError.wrapped "failed to check remote URL conflict" e))
    | .ok listed =>
      match firstConflict name listed.1 with
      | some conflictingServer =>
        ([ev], some (RegError.remoteURLConflict remote.url conflictingServer.server.name))
      | none =>
        let r := checkRemotes db name rest
        (ev :: r.1, r.2)

/-- `validateNoDuplicateRemoteURLs` (registry_service.go lines 167-188). -/
def validateNoDuplicateRemoteURLs (db : Db) (serverDetail : ServerJSON) :
    List DbEvent × Option RegError :=
  checkRemotes db serverDetail.name serverDetail.remotes

/-- The `isNewLatest` computation of `createServerInTransaction`
(lines 132-145): `true` when no current latest exists, else
`CompareVersions(new.version, current.version, publishTime,
existingPublishedAt) > 0`, where `existingPublishedAt` is the Go zero
time when the current latest has no official metadata. -/
def decideIsLatest (compareVersions : String → String → Nat → Nat → Int)
    (publishTime : Nat) (newVersion : String)
    (currentLatest : Option ServerResponse) : Bool :=
  match currentLatest with
  | none => true
  | some currentLatest =>
    let existingPublishedAt :=
      match currentLatest.meta.official with
      | some official => official.publishedAt
      | none => 0
    decide (compareVersions newVersion currentLatest.server.version publishTime existingPublishedAt > 0)

/-- The `officialMeta` record built for the new row
(registry_service.go lines 154-161): active by default, all timestamps
set to the publish time. -/
def newVersionMeta (publishTime : Nat) (isNewLatest : Bool) : RegistryExtensions :=
  { status := StatusActive
    statusMessage := none
    statusChangedAt := publishTime
    publishedAt := publishTime
    updatedAt := publishTime
    isLatest := isNewLatest }

/-- Tail of `createServerInTransaction` (lines 132-164): decide
`isNewLatest`, unmark the old latest when needed, insert the new row. -/
def publishDecideLatest (db : Db) (compareVersions : String → String → Nat → Nat → Int)
    (publishTime : Nat) (serverJSON : ServerJSON)
    (currentLatest : Option ServerResponse) : List DbEvent × Except RegError ServerResponse :=
  let isNewLatest := decideIsLatest compareVersions publishTime serverJSON.version currentLatest
  let officialMeta := newVersionMeta publishTime isNewLatest
  if isNewLatest && currentLatest.isSome then
    match db.unmarkAsLatest serverJSON.name with
    | some e => ([DbEvent.unmarkAsLatest serverJSON.name], Except.error e)
    | none =>
      ([DbEvent.unmarkAsLatest serverJSON.name, DbEvent.createServer serverJSON officialMeta],
       db.createServer serverJSON officialMeta)
  else
    ([DbEvent.createServer serverJSON officialMeta], db.createServer serverJSON officialMeta)

/-- `createServerInTransaction` after the version-duplicate check
(lines 126-131): fetch the current latest, tolerating `ErrNotFound`. -/
def publishAfterVersionCheck (db : Db) (compareVersions : String → String → Nat → Nat → Int)
    (publishTime : Nat) (serverJSON : ServerJSON) : List DbEvent × Except RegError ServerResponse :=
  let ev := DbEvent.getCurrentLatestVersion serverJSON.name
  let g := db.getCurrentLatestVersion serverJSON.name
  match g.2 with
  | some e =>
    if e = RegError.notFound then
      let r := publishDecideLatest db compareVersions publishTime serverJSON g.1
      (ev :: r.1, r.2)
    else ([ev], Except.error e)
  | none =>
    let r := publishDecideLatest db compareVersions publishTime serverJSON g.1
    (ev :: r.1, r.2)

/-- `createServerInTransaction` after the version-count guard
(lines 113-124): reject at the cap, then reject duplicate versions. -/
def publishAfterCount (db : Db) (compareVersions : String → String → Nat → Nat → Int)
    (publishTime : Nat) (serverJSON : ServerJSON) (versionCount : Nat) :
    List DbEvent × Except RegError ServerResponse :=
  if versionCount ≥ maxServerVersionsPerServer then
    ([], Except.error RegError.maxServersReached)
  else
    let ev := DbEvent.checkVersionExists serverJSON.name serverJSON.version
    match db.checkVersionExists serverJSON.name serverJSON.version with
    | .error e => ([ev], Except.error e)
    | .ok versionExists =>
      if versionExists then ([ev], Except.error RegError.invalidVersion)
      else
        let r := publishAfterVersionCheck db compareVersions publishTime serverJSON
        (ev :: r.1, r.2)

/-- Body of `createServerInTransaction` once the advisory lock is held
(lines 103-115): remote-URL duplicate check, then the version count with
`ErrNotFound` tolerated. -/
def publishLocked (db : Db) (compareVersions : String → String → Nat → Nat → Int)
    (publishTime : Nat) (serverJSON : ServerJSON) : List DbEvent × Except RegError ServerResponse :=
  let c := validateNoDuplicateRemoteURLs db serverJSON
  match c.2 with
  | some e => (c.1, Except.error e)
  | none =>
    let count := db.countServerVersions serverJSON.name
    let evc := DbEvent.countServerVersions serverJSON.name
    match count.2 with
    | some e =>
      if e = RegError.notFound then
        let r := publishAfterCount db compareVersions publishTime serverJSON count.1
        (c.1 ++ evc :: r.1, r.2)
      else (c.1 ++ [evc], Except.error e)
    | none =>
      let r := publishAfterCount db compareVersions publishTime serverJSON count.1
      (c.1 ++ evc :: r.1, r.2)

/-- `createServerInTransaction` (registry_service.go lines 89-165):
request validation, advisory lock, then the locked body. `publishTime`
stands for the `time.Now()` taken before the lock; `compareVersions`
stands for the package-level `CompareVersions`, which is outside the
source tree. -/
def createServerInTransaction (db : Db) (compareVersions : String → String → Nat → Nat → Int)
    (publishTime : Nat) (req : ServerJSON) : List DbEvent × Except RegError ServerResponse :=
  match db.validatePublishRequest req with
  | some e => ([DbEvent.validatePublish req], Except.error e)
  | none =>
    match db.acquirePublishLock req.name with
    | some e => ([DbEvent.validatePublish req, DbEvent.acquirePublishLock req.name], Except.error e)
    | none =>
      let r := publishLocked db compareVersions publishTime req
      (DbEvent.validatePublish req :: DbEvent.acquirePublishLock req.name :: r.1, r.2)

/-- `ListServers` of the registry service (lines 35-48): non-positive
limits are replaced by the default 30, then the store is called. -/
def serviceListServers (db : Db) (filter : ServerFilter) (cursor : String) (limit : Int) :
    Except RegError (List ServerResponse × String) :=
  let limit := if limit ≤ 0 then 30 else limit
  db.listServers filter cursor limit

/-- Body of `updateServerStatusInTransaction` once the lock is held
(lines 272-283): re-run the remote-URL check when restoring an
active status on a currently deleted row, then write the status. -/
def statusLocked (db : Db) (serverName version : String)
    (statusChange : StatusChangeRequest) (currentServer : ServerResponse) :
    List DbEvent × Except RegError ServerResponse :=
  let needsCheck : Bool :=
    statusChange.newStatus == StatusActive &&
      (match currentServer.meta.official with
       | some official => official.status == StatusDeleted
       | none => false)
  let evSet := DbEvent.setServerStatus serverName version statusChange.newStatus statusChange.statusMessage
  if needsCheck then
    let c := validateNoDuplicateRemoteURLs db currentServer.server
    match c.2 with
    | some e => (c.1, Except.error e)
    | none =>
      (c.1 ++ [evSet],
       db.setServerStatus serverName version statusChange.newStatus statusChange.statusMessage)
  else
    ([evSet], db.setServerStatus serverName version statusChange.newStatus statusChange.statusMessage)

/-- `updateServerStatusInTransaction` (registry_service.go lines
259-283): read the current row (including deleted), take the advisory
lock, then the locked body. -/
def updateServerStatusInTransaction (db : Db) (serverName version : String)
    (statusChange : StatusChangeRequest) : List DbEvent × Except RegError ServerResponse :=
  let evGet := DbEvent.getServerByNameAndVersion serverName version true
  match db.getServerByNameAndVersion serverName version true with
  | .error e => ([evGet], Except.error e)
  | .ok currentServer =>
    match db.acquirePublishLock serverName with
    | some e => ([evGet, DbEvent.acquirePublishLock serverName], Except.error e)
    | none =>
      let r := statusLocked db serverName version statusChange currentServer
      (evGet :: DbEvent.acquirePublishLock serverName :: r.1, r.2)

/-- Body of `updateServerInTransaction` once the lock is held
(lines 224-247): remote-URL check on the updated descriptor, descriptor
update, then the optional status write. -/
def editLocked (db : Db) (serverName version : String) (req : ServerJSON)
    (statusChange : Option StatusChangeRequest) : List DbEvent × Except RegError ServerResponse :=
  let updatedServer := req
  let c := validateNoDuplicateRemoteURLs db updatedServer
  match c.2 with
  | some e => (c.1, Except.error e)
  | none =>
    let evUpd := DbEvent.updateServer serverName version updatedServer
    match db.updateServer serverName version updatedServer with
    | .error e => (c.1 ++ [evUpd], Except.error e)
    | .ok updatedServerResponse =>
      match statusChange with
      | some sc =>
        (c.1 ++ [evUpd, DbEvent.setServerStatus serverName version sc.newStatus sc.statusMessage],
         db.setServerStatus serverName version sc.newStatus sc.statusMessage)
      | none => (c.1 ++ [evUpd], Except.ok updatedServerResponse)

/-- The `skipRegistryValidation` computation of
`updateServerInTransaction` (lines 207-212): skip when the current row is
deleted or the request transitions it to deleted. -/
def skipRegistryValidationFor (currentServer : ServerResponse)
    (statusChange : Option StatusChangeRequest) : Bool :=
  let currentlyDeleted :=
    match currentServer.meta.official with
    | some official => official.status == StatusDeleted
    | none => false
  let beingDeleted :=
    match statusChange with
    | some sc => sc.newStatus == StatusDeleted
    | none => false
  currentlyDeleted || beingDeleted

/-- `updateServerInTransaction` (registry_service.go lines 199-248):
read the current row, compute whether registry validation is skipped,
validate the request, take the advisory lock, then the locked body. -/
def updateServerInTransaction (db : Db) (serverName version : String) (req : ServerJSON)
    (statusChange : Option StatusChangeRequest) : List DbEvent × Except RegError ServerResponse :=
  let evGet := DbEvent.getServerByNameAndVersion serverName version true
  match db.getServerByNameAndVersion serverName version true with
  | .error e => ([evGet], Except.error e)
  | .ok currentServer =>
    let skipRegistryValidation := skipRegistryValidationFor currentServer statusChange
    match db.validateUpdateRequest req skipRegistryValidation with
    | some e => ([evGet, DbEvent.validateUpdate req skipRegistryValidation], Except.error e)
    | none =>
      match db.acquirePublishLock serverName with
      | some e =>
        ([evGet, DbEvent.validateUpdate req skipRegistryValidation,
          DbEvent.acquirePublishLock serverName], Except.error e)
      | none =>
        let r := editLocked db serverName version req statusChange
        (evGet :: DbEvent.validateUpdate req skipRegistryValidation ::
          DbEvent.acquirePublishLock serverName :: r.1, r.2)

/-- The loop of `updateAllVersionsStatusInTransaction` over the listed
versions (lines 311-318): the remote-URL check is re-run for every
version currently deleted. -/
def checkDeletedVersions (db : Db) : List ServerResponse → List DbEvent × Option RegError
  | [] => ([], none)
  | version :: rest =>
    let isDeleted :=
      match version.meta.official with
      | some official => official.status == StatusDeleted
      | none => false
    if isDeleted then
      let c := validateNoDuplicateRemoteURLs db version.server
      match c.2 with
      | some e => (c.1, some e)
      | none =>
        let r := checkDeletedVersions db rest
        (c.1 ++ r.1, r.2)
    else checkDeletedVersions db rest

/-- The filter `{Name: &serverName, IncludeDeleted: &includeDeleted}`
built by `updateAllVersionsStatusInTransaction`. -/
def nameFilterIncludeDeleted (serverName : String) : ServerFilter :=
  { name := some serverName, remoteURL := none, includeDeleted := some true }

/-- Body of `updateAllVersionsStatusInTransaction` once the lock is held
(lines 300-322): when transitioning to active, list all versions
(including deleted) and re-check remote URLs for the deleted ones, then
write all statuses. -/
def bulkLocked (db : Db) (serverName : String) (statusChange : StatusChangeRequest) :
    List DbEvent × Except RegError (List ServerResponse) :=
  let evSet := DbEvent.setAllVersionsStatus serverName statusChange.newStatus statusChange.statusMessage
  if statusChange.newStatus == StatusActive then
    let evList := DbEvent.listServers (nameFilterIncludeDeleted serverName) "" 1000
    match db.listServers (nameFilterIncludeDeleted serverName) "" 1000 with
    | .error e => ([evList], Except.error (RegError.wrapped "failed to list server versions" e))
    | .ok listed =>
      let c := checkDeletedVersions db listed.1
      match c.2 with
      | some e => (evList :: c.1, Except.error e)
      | none =>
        (evList :: c.1 ++ [evSet],
         db.setAllVersionsStatus serverName statusChange.newStatus statusChange.statusMessage)
  else
    ([evSet], db.setAllVersionsStatus serverName statusChange.newStatus statusChange.statusMessage)

/-- `updateAllVersionsStatusInTransaction` (registry_service.go lines
294-323): the advisory lock is the first step, then the locked body. -/
def updateAllVersionsStatusInTransaction (db : Db) (serverName : String)
    (statusChange : StatusChangeRequest) : List DbEvent × Except RegError (List ServerResponse) :=
  match db.acquirePublishLock serverName with
  | some e => ([DbEvent.acquirePublishLock serverName], Except.error e)
  | none =>
    let r := bulkLocked db serverName statusChange
    (DbEvent.acquirePublishLock serverName :: r.1, r.2)

/-! ## Trace predicates -/

/-- The calls a workflow performs before its first advisory-lock
acquisition. -/
def eventsBeforeLock : List DbEvent → List DbEvent
  | [] => []
  | e :: rest => if e.isLock then [] else e :: eventsBeforeLock rest

/-- The first advisory-lock acquisition of a trace, if any. -/
def firstLockEvent : List DbEvent → Option DbEvent
  | [] => none
  | e :: rest => if e.isLock then some e else firstLockEvent rest

/-- No write call occurs before the first advisory-lock acquisition
(and, when no lock is ever taken, no write occurs at all). -/
def noWriteBeforeLock : List DbEvent → Bool
  | [] => true
  | e :: rest => if e.isLock then true else !e.isWrite && noWriteBeforeLock rest

/-! ## Claims about the status-transition validators -/

/-- C6: for every status-change request with requested status `active`
and a status message present in the body, `validateStatusTransition`
rejects with the message
`status_message cannot be provided when setting status to active`,
whatever the current server state is. -/
theorem C6_active_message_rejected (currentServer : ServerResponse)
    (body : UpdateServerStatusBody) (m : String)
    (hm : body.statusMessage = some m) :
    validateStatusTransition currentServer StatusActive body =
      some "status_message cannot be provided when setting status to active" := by
  simp [validateStatusTransition, StatusActive, StatusDeprecated, StatusDeleted, hm]

/-- Witness for C6 at a concrete server and body. -/
theorem C6_active_message_rejected_witness :
    validateStatusTransition
        ⟨⟨"com.example/s", "1.0.0", []⟩, ⟨some ⟨StatusActive, none, 1, 1, 1, true⟩⟩⟩
        StatusActive ⟨"active", some "x"⟩ =
      some "status_message cannot be provided when setting status to active" :=
  C6_active_message_rejected _ _ "x" rfl

/-- C10: when the current server response carries no official registry
metadata, `validateStatusTransition` accepts every request that passes
the valid-status and active-with-message checks; in particular the no-op
comparison is skipped. -/
theorem C10_no_official_accepts (currentServer : ServerResponse)
    (newStatus : Status) (body : UpdateServerStatusBody)
    (hoff : currentServer.meta.official = none)
    (hvalid : newStatus = StatusActive ∨ newStatus = StatusDeprecated ∨
      newStatus = StatusDeleted)
    (hnoActiveMsg : ¬(newStatus = StatusActive ∧ body.statusMessage.isSome = true)) :
    validateStatusTransition currentServer newStatus body = none := by
  rcases hvalid with h | h | h <;> subst h <;>
    simp_all [validateStatusTransition, StatusActive, StatusDeprecated, StatusDeleted, hoff]

/-- Witness for C10: a request repeating plausible stored values is
accepted when no official metadata is attached. -/
theorem C10_no_official_accepts_witness :
    validateStatusTransition ⟨⟨"com.example/s", "1.0.0", []⟩, ⟨none⟩⟩
      StatusDeprecated ⟨"deprecated", some "x"⟩ = none :=
  C10_no_official_accepts _ _ _ rfl (Or.inr (Or.inl rfl)) (by simp [StatusDeprecated, StatusActive])

/-- C7: for a non-empty list of versions, `validateBulkStatusTransition`
accepts exactly when `validateStatusTransition` accepts for at least one
version, and its only rejection is the bulk no-op message. -/
theorem C7_bulk_validator (versions : List ServerResponse) (newStatus : Status)
    (body : UpdateServerStatusBody) (hne : versions ≠ []) :
    (validateBulkStatusTransition versions newStatus body = none ↔
      ∃ v ∈ versions, validateStatusTransition v newStatus body = none) ∧
    (validateBulkStatusTransition versions newStatus body = none ∨
      validateBulkStatusTransition versions newStatus body =
        some "No changes to apply: all versions already have the requested status and message") := by
  have hIsEmpty : versions.isEmpty = false := by
    cases versions with
    | nil => exact absurd rfl hne
    | cons a t => rfl
  constructor
  · unfold validateBulkStatusTransition
    rw [hIsEmpty]
    by_cases hc : versions.any
        (fun version => (validateStatusTransition version newStatus body).isNone) = true
    · simp only [hc, Bool.false_eq_true, if_false, if_true]
      rw [List.any_eq_true] at hc
      simp only [Option.isNone_iff_eq_none] at hc
      simpa using hc
    · simp only [Bool.not_eq_true] at hc
      simp only [hc, Bool.false_eq_true, if_false]
      rw [Bool.eq_false_iff, Ne, List.any_eq_true] at hc
      simp only [Option.isNone_iff_eq_none] at hc
      constructor
      · intro h; cases h
      · intro h; exact absurd (by simpa using h) hc
  · unfold validateBulkStatusTransition
    rw [hIsEmpty]
    by_cases hc : versions.any
        (fun version => (validateStatusTransition version newStatus body).isNone) = true
    · simp [hc]
    · simp only [Bool.not_eq_true] at hc
      simp [hc]

/-- Witness for C7: one deprecated version among two makes the bulk
activate request valid. -/
theorem C7_bulk_validator_witness :
    (validateBulkStatusTransition
        [⟨⟨"com.example/s", "1.0.0", []⟩, ⟨some ⟨StatusDeprecated, some "old", 1, 1, 1, false⟩⟩⟩]
        StatusDeprecated ⟨"deprecated", some "new"⟩ = none ↔
      ∃ v ∈ [(⟨⟨"com.example/s", "1.0.0", []⟩,
          ⟨some ⟨StatusDeprecated, some "old", 1, 1, 1, false⟩⟩⟩ : ServerResponse)],
        validateStatusTransition v StatusDeprecated ⟨"deprecated", some "new"⟩ = none) ∧
    (validateBulkStatusTransition
        [⟨⟨"com.example/s", "1.0.0", []⟩, ⟨some ⟨StatusDeprecated, some "old", 1, 1, 1, false⟩⟩⟩]
        StatusDeprecated ⟨"deprecated", some "new"⟩ = none ∨
      validateBulkStatusTransition
        [⟨⟨"com.example/s", "1.0.0", []⟩, ⟨some ⟨StatusDeprecated, some "old", 1, 1, 1, false⟩⟩⟩]
        StatusDeprecated ⟨"deprecated", some "new"⟩ =
        some "No changes to apply: all versions already have the requested status and message") :=
  C7_bulk_validator _ _ _ (by simp)

/-- C5 counterexample: the claim says a request whose status differs from
the stored status is accepted by the validator. Here the stored status is
`deprecated` and the stored message is absent, the requested status is
`active` with a message, so both the status and the message differ, yet
the validator rejects (with the active-message error). -/
theorem C5_counterexample :
    validateStatusTransition
        ⟨⟨"com.example/s", "1.0.0", []⟩, ⟨some ⟨StatusDeprecated, none, 1, 1, 1, true⟩⟩⟩
        StatusActive ⟨"active", some "x"⟩ =
      some "status_message cannot be provided when setting status to active" ∧
    StatusActive ≠ StatusDeprecated ∧ (some "x" : Option String) ≠ none := by
  refine ⟨rfl, ?_, ?_⟩ <;> decide

/-- C5 amended: restricted to requests that pass the two checks that run
first in the source (the requested status is a valid value, and it is not
`active` with a message present) and to versions carrying official
metadata, the validator rejects with the no-op message exactly when the
requested status equals the current status and the requested message
equals the current message by presence and value, and accepts
otherwise. -/
theorem C5_amended_noop_rule (currentServer : ServerResponse)
    (official : RegistryExtensions) (newStatus : Status) (body : UpdateServerStatusBody)
    (hoff : currentServer.meta.official = some official)
    (hvalid : newStatus = StatusActive ∨ newStatus = StatusDeprecated ∨
      newStatus = StatusDeleted)
    (hnoActiveMsg : ¬(newStatus = StatusActive ∧ body.statusMessage.isSome = true)) :
    validateStatusTransition currentServer newStatus body =
      (if official.status = newStatus ∧ official.statusMessage = body.statusMessage then
        some "No changes to apply: status and message are already set to the provided values"
      else none) := by
  rcases hvalid with h | h | h <;> subst h <;>
    rcases hcm : official.statusMessage with _ | c <;>
    rcases hnm : body.statusMessage with _ | n <;>
    simp_all [validateStatusTransition, StatusActive, StatusDeprecated, StatusDeleted,
      bne_iff_ne] <;>
    split_ifs <;> simp_all

/-- Witness for C5 amended: a message-only change on a deprecated version
is accepted. -/
theorem C5_amended_noop_rule_witness :
    validateStatusTransition
        ⟨⟨"com.example/s", "1.0.0", []⟩, ⟨some ⟨StatusDeprecated, some "old", 1, 1, 1, true⟩⟩⟩
        StatusDeprecated ⟨"deprecated", some "new"⟩ =
      (if (StatusDeprecated : Status) = StatusDeprecated ∧
          (some "old" : Option String) = some "new" then
        some "No changes to apply: status and message are already set to the provided values"
      else none) :=
  C5_amended_noop_rule _ ⟨StatusDeprecated, some "old", 1, 1, 1, true⟩ _ _ rfl
    (Or.inr (Or.inl rfl)) (by simp [StatusDeprecated, StatusActive])

/-! ## Concrete oracles for witnesses and counterexamples -/

/-- A trivial store oracle: every call succeeds and the registry is
empty. Used to instantiate workflow theorems at concrete inputs. -/
def dbTriv : Db where
  validatePublishRequest := fun _ => none
  validateUpdateRequest := fun _ _ => none
  acquirePublishLock := fun _ => none
  listServers := fun _ _ _ => Except.ok ([], "")
  countServerVersions := fun _ => (0, none)
  checkVersionExists := fun _ _ => Except.ok false
  getCurrentLatestVersion := fun _ => (none, some RegError.notFound)
  getServerByNameAndVersion := fun name version _ =>
    Except.ok ⟨⟨name, version, []⟩, ⟨some ⟨StatusActive, none, 1, 1, 1, true⟩⟩⟩
  unmarkAsLatest := fun _ => none
  createServer := fun req officialMeta => Except.ok ⟨req, ⟨some officialMeta⟩⟩
  updateServer := fun _ _ req => Except.ok ⟨req, ⟨none⟩⟩
  setServerStatus := fun name version status message =>
    Except.ok ⟨⟨name, version, []⟩, ⟨some ⟨status, message, 1, 1, 2, true⟩⟩⟩
  setAllVersionsStatus := fun _ _ _ => Except.ok []

/-- A stored row of a different server using the remote URL
`https://x.example/sse`. -/
def conflictRow : ServerResponse :=
  ⟨⟨"other/name", "9.9.9", [⟨"sse", "https://x.example/sse"⟩]⟩,
   ⟨some ⟨StatusActive, none, 1, 1, 1, true⟩⟩⟩

/-- A deleted version of `com.example/s` advertising the same URL. -/
def deletedServer : ServerResponse :=
  ⟨⟨"com.example/s", "1.0.0", [⟨"sse", "https://x.example/sse"⟩]⟩,
   ⟨some ⟨StatusDeleted, some "gone", 1, 1, 1, false⟩⟩⟩

/-- An oracle where the stored row `deletedServer` is deleted and another
server has adopted its remote URL. -/
def dbConflict : Db :=
  { dbTriv with
    getServerByNameAndVersion := fun _ _ _ => Except.ok deletedServer
    listServers := fun _ _ _ => Except.ok ([conflictRow], "") }

/-! ## Claims about the registry service workflows -/

/-- C9: the registry service `ListServers` replaces a non-positive limit
by the default 30 and passes a positive limit through unchanged. -/
theorem C9_default_limit (db : Db) (filter : ServerFilter) (cursor : String) (limit : Int) :
    (limit ≤ 0 → serviceListServers db filter cursor limit = db.listServers filter cursor 30) ∧
    (0 < limit → serviceListServers db filter cursor limit = db.listServers filter cursor limit) := by
  constructor
  · intro h; simp [serviceListServers, h]
  · intro h
    have h2 : ¬limit ≤ 0 := not_le.mpr h
    simp [serviceListServers, h2]

/-- Witness for C9: limit 0 becomes 30, limit 7 is passed through. -/
theorem C9_default_limit_witness :
    serviceListServers dbTriv (urlFilter "u") "" 0 = dbTriv.listServers (urlFilter "u") "" 30 ∧
    serviceListServers dbTriv (urlFilter "u") "" 7 = dbTriv.listServers (urlFilter "u") "" 7 :=
  ⟨(C9_default_limit dbTriv (urlFilter "u") "" 0).1 (by decide),
   (C9_default_limit dbTriv (urlFilter "u") "" 7).2 (by decide)⟩

/-- Trace shape of publish: either validation fails at once, or the
request validation is immediately followed by the lock acquisition. -/
theorem publish_trace_shape (db : Db) (compareVersions : String → String → Nat → Nat → Int)
    (publishTime : Nat) (req : ServerJSON) :
    (createServerInTransaction db compareVersions publishTime req).1 =
      [DbEvent.validatePublish req] ∨
    ∃ rest, (createServerInTransaction db compareVersions publishTime req).1 =
      DbEvent.validatePublish req :: DbEvent.acquirePublishLock req.name :: rest := by
  unfold createServerInTransaction
  cases db.validatePublishRequest req with
  | some e => exact Or.inl rfl
  | none =>
    cases db.acquirePublishLock req.name with
    | some e => exact Or.inr ⟨[], rfl⟩
    | none => exact Or.inr ⟨_, rfl⟩

/-- Trace shape of the single-version status change: either the initial
read fails at once, or it is immediately followed by the lock. -/
theorem status_trace_shape (db : Db) (serverName version : String)
    (statusChange : StatusChangeRequest) :
    (updateServerStatusInTransaction db serverName version statusChange).1 =
      [DbEvent.getServerByNameAndVersion serverName version true] ∨
    ∃ rest, (updateServerStatusInTransaction db serverName version statusChange).1 =
      DbEvent.getServerByNameAndVersion serverName version true ::
      DbEvent.acquirePublishLock serverName :: rest := by
  unfold updateServerStatusInTransaction
  cases db.getServerByNameAndVersion serverName version true with
  | error e => exact Or.inl rfl
  | ok currentServer =>
    cases db.acquirePublishLock serverName with
    | some e => exact Or.inr ⟨[], rfl⟩
    | none => exact Or.inr ⟨_, rfl⟩

/-- Trace shape of the edit workflow: the initial read, then the request
validation, then the lock, each step possibly failing. -/
theorem edit_trace_shape (db : Db) (serverName version : String) (req : ServerJSON)
    (statusChange : Option StatusChangeRequest) :
    (updateServerInTransaction db serverName version req statusChange).1 =
      [DbEvent.getServerByNameAndVersion serverName version true] ∨
    (∃ skip, (updateServerInTransaction db serverName version req statusChange).1 =
      [DbEvent.getServerByNameAndVersion serverName version true,
       DbEvent.validateUpdate req skip]) ∨
    (∃ skip rest, (updateServerInTransaction db serverName version req statusChange).1 =
      DbEvent.getServerByNameAndVersion serverName version true ::
      DbEvent.validateUpdate req skip ::
      DbEvent.acquirePublishLock serverName :: rest) := by
  unfold updateServerInTransaction
  cases db.getServerByNameAndVersion serverName version true with
  | error e => exact Or.inl rfl
  | ok currentServer =>
    dsimp only
    cases h2 : db.validateUpdateRequest req (skipRegistryValidationFor currentServer statusChange) with
    | some e => exact Or.inr (Or.inl ⟨_, rfl⟩)
    | none =>
      cases h3 : db.acquirePublishLock serverName with
      | some e => exact Or.inr (Or.inr ⟨_, [], rfl⟩)
      | none => exact Or.inr (Or.inr ⟨_, _, rfl⟩)

/-- Trace shape of the all-versions status change: the lock is always
the first call. -/
theorem bulk_trace_shape (db : Db) (serverName : String)
    (statusChange : StatusChangeRequest) :
    ∃ rest, (updateAllVersionsStatusInTransaction db serverName statusChange).1 =
      DbEvent.acquirePublishLock serverName :: rest := by
  unfold updateAllVersionsStatusInTransaction
  cases db.acquirePublishLock serverName with
  | some e => exact ⟨[], rfl⟩
  | none => exact ⟨_, rfl⟩

/-- C2 counterexample: the claim puts the advisory-lock acquisition
first, before any other read, validation or write, in every mutating
workflow. In the single-version status-change workflow on this concrete
oracle the first call is the read of the current row, not the lock. -/
theorem C2_counterexample :
    (updateServerStatusInTransaction dbTriv "com.example/s" "1.0.0"
        ⟨StatusDeprecated, none⟩).1.head? =
      some (DbEvent.getServerByNameAndVersion "com.example/s" "1.0.0" true) ∧
    DbEvent.isLock (DbEvent.getServerByNameAndVersion "com.example/s" "1.0.0" true) = false := by
  exact ⟨rfl, rfl⟩

/-- C2 amended: in every mutating workflow the advisory lock is keyed by
the server name and is acquired before any database write; but it is the
first call only in the all-versions workflow, while publish validates the
request first, edit first reads the current row and validates the
request, and the single-version status change first reads the current
row. -/
theorem C2_amended_lock_order (db : Db)
    (compareVersions : String → String → Nat → Nat → Int) (publishTime : Nat)
    (req editReq : ServerJSON) (serverName version : String)
    (statusChange : StatusChangeRequest) (editStatusChange : Option StatusChangeRequest) :
    (noWriteBeforeLock (createServerInTransaction db compareVersions publishTime req).1 = true ∧
      eventsBeforeLock (createServerInTransaction db compareVersions publishTime req).1 =
        [DbEvent.validatePublish req] ∧
      (firstLockEvent (createServerInTransaction db compareVersions publishTime req).1 = none ∨
        firstLockEvent (createServerInTransaction db compareVersions publishTime req).1 =
          some (DbEvent.acquirePublishLock req.name))) ∧
    (noWriteBeforeLock
        (updateServerInTransaction db serverName version editReq editStatusChange).1 = true ∧
      (eventsBeforeLock
          (updateServerInTransaction db serverName version editReq editStatusChange).1 =
          [DbEvent.getServerByNameAndVersion serverName version true] ∨
        ∃ skip, eventsBeforeLock
            (updateServerInTransaction db serverName version editReq editStatusChange).1 =
          [DbEvent.getServerByNameAndVersion serverName version true,
           DbEvent.validateUpdate editReq skip]) ∧
      (firstLockEvent
          (updateServerInTransaction db serverName version editReq editStatusChange).1 = none ∨
        firstLockEvent
            (updateServerInTransaction db serverName version editReq editStatusChange).1 =
          some (DbEvent.acquirePublishLock serverName))) ∧
    (noWriteBeforeLock
        (updateServerStatusInTransaction db serverName version statusChange).1 = true ∧
      eventsBeforeLock (updateServerStatusInTransaction db serverName version statusChange).1 =
        [DbEvent.getServerByNameAndVersion serverName version true] ∧
      (firstLockEvent
          (updateServerStatusInTransaction db serverName version statusChange).1 = none ∨
        firstLockEvent (updateServerStatusInTransaction db serverName version statusChange).1 =
          some (DbEvent.acquirePublishLock serverName))) ∧
    (noWriteBeforeLock (updateAllVersionsStatusInTransaction db serverName statusChange).1 = true ∧
      eventsBeforeLock (updateAllVersionsStatusInTransaction db serverName statusChange).1 = [] ∧
      firstLockEvent (updateAllVersionsStatusInTransaction db serverName statusChange).1 =
        some (DbEvent.acquirePublishLock serverName)) := by
  refine ⟨?_, ?_, ?_, ?_⟩
  · rcases publish_trace_shape db compareVersions publishTime req with h | ⟨rest, h⟩ <;>
      rw [h] <;>
      simp [noWriteBeforeLock, eventsBeforeLock, firstLockEvent, DbEvent.isLock, DbEvent.isWrite]
  · rcases edit_trace_shape db serverName version editReq editStatusChange with
      h | ⟨skip, h⟩ | ⟨skip, rest, h⟩ <;> rw [h]
    · simp [noWriteBeforeLock, eventsBeforeLock, firstLockEvent, DbEvent.isLock, DbEvent.isWrite]
    · refine ⟨?_, Or.inr ⟨skip, ?_⟩, Or.inl ?_⟩ <;>
        simp [noWriteBeforeLock, eventsBeforeLock, firstLockEvent, DbEvent.isLock, DbEvent.isWrite]
    · refine ⟨?_, Or.inr ⟨skip, ?_⟩, Or.inr ?_⟩ <;>
        simp [noWriteBeforeLock, eventsBeforeLock, firstLockEvent, DbEvent.isLock, DbEvent.isWrite]
  · rcases status_trace_shape db serverName version statusChange with h | ⟨rest, h⟩ <;>
      rw [h] <;>
      simp [noWriteBeforeLock, eventsBeforeLock, firstLockEvent, DbEvent.isLock, DbEvent.isWrite]
  · rcases bulk_trace_shape db serverName statusChange with ⟨rest, h⟩
    rw [h]
    simp [noWriteBeforeLock, eventsBeforeLock, firstLockEvent, DbEvent.isLock, DbEvent.isWrite]

/-- Every call of the remote-URL duplicate check is a `listServers`
read; in particular none is a write. -/
theorem checkRemotes_no_write (db : Db) (name : String) (rs : List Remote) :
    ∀ e ∈ (checkRemotes db name rs).1, e.isWrite = false := by
  induction rs with
  | nil => intro e he; simp [checkRemotes] at he
  | cons remote rest ih =>
    intro e he
    unfold checkRemotes at he
    rcases h : db.listServers (urlFilter remote.url) "" 1000 with e1 | listed
    · rw [h] at he
      simp at he
      subst he; rfl
    · rw [h] at he
      dsimp only at he
      rcases h2 : firstConflict name listed.1 with _ | cs
      · rw [h2] at he
        simp at he
        rcases he with he | he
        · subst he; rfl
        · exact ih e he
      · rw [h2] at he
        simp at he
        subst he; rfl

/-- Under the success hypotheses of the claim, publish reduces to the
decide-latest step; shared spine for the publish claims. -/
theorem publish_success_spine (db : Db)
    (compareVersions : String → String → Nat → Nat → Int) (publishTime : Nat)
    (req : ServerJSON)
    (hval : db.validatePublishRequest req = none)
    (hlock : db.acquirePublishLock req.name = none)
    (hurl : (validateNoDuplicateRemoteURLs db req).2 = none)
    (hcount : (db.countServerVersions req.name).2 = none ∨
      (db.countServerVersions req.name).2 = some RegError.notFound)
    (hbelow : (db.countServerVersions req.name).1 < maxServerVersionsPerServer)
    (hexists : db.checkVersionExists req.name req.version = Except.ok false)
    (hlatest : (db.getCurrentLatestVersion req.name).2 = none ∨
      (db.getCurrentLatestVersion req.name).2 = some RegError.notFound) :
    createServerInTransaction db compareVersions publishTime req =
      (DbEvent.validatePublish req :: DbEvent.acquirePublishLock req.name ::
        ((validateNoDuplicateRemoteURLs db req).1 ++
          DbEvent.countServerVersions req.name ::
          DbEvent.checkVersionExists req.name req.version ::
          DbEvent.getCurrentLatestVersion req.name ::
          (publishDecideLatest db compareVersions publishTime req
            (db.getCurrentLatestVersion req.name).1).1),
       (publishDecideLatest db compareVersions publishTime req
         (db.getCurrentLatestVersion req.name).1).2) := by
  have step4 : publishAfterVersionCheck db compareVersions publishTime req =
      (DbEvent.getCurrentLatestVersion req.name ::
        (publishDecideLatest db compareVersions publishTime req
          (db.getCurrentLatestVersion req.name).1).1,
       (publishDecideLatest db compareVersions publishTime req
         (db.getCurrentLatestVersion req.name).1).2) := by
    simp only [publishAfterVersionCheck]
    rcases hlatest with hc | hc <;> rw [hc]
    all_goals rfl
  have step3 : publishAfterCount db compareVersions publishTime req
      (db.countServerVersions req.name).1 =
      (DbEvent.checkVersionExists req.name req.version ::
        DbEvent.getCurrentLatestVersion req.name ::
        (publishDecideLatest db compareVersions publishTime req
          (db.getCurrentLatestVersion req.name).1).1,
       (publishDecideLatest db compareVersions publishTime req
         (db.getCurrentLatestVersion req.name).1).2) := by
    unfold publishAfterCount
    rw [if_neg (not_le.mpr hbelow), hexists, step4]
    rfl
  have step2 : publishLocked db compareVersions publishTime req =
      ((validateNoDuplicateRemoteURLs db req).1 ++
        DbEvent.countServerVersions req.name ::
        DbEvent.checkVersionExists req.name req.version ::
        DbEvent.getCurrentLatestVersion req.name ::
        (publishDecideLatest db compareVersions publishTime req
          (db.getCurrentLatestVersion req.name).1).1,
       (publishDecideLatest db compareVersions publishTime req
         (db.getCurrentLatestVersion req.name).1).2) := by
    simp only [publishLocked]
    rw [hurl]
    rcases hcount with hc | hc <;> rw [hc] <;> simp [step3]
  unfold createServerInTransaction
  rw [hval, hlock, step2]

/-- C1: on a successful publish, the new row is inserted with
`isLatest = decideIsLatest …`, which is `true` when no current latest
exists and `compare(new.version, current.version, publishTime,
current.publishedAt) > 0` otherwise; and exactly when the new row is
latest while a current latest exists, `UnmarkAsLatest` is called,
immediately before the insertion and after every read. -/
theorem C1_publish_latest (db : Db)
    (compareVersions : String → String → Nat → Nat → Int) (publishTime : Nat)
    (req : ServerJSON)
    (hval : db.validatePublishRequest req = none)
    (hlock : db.acquirePublishLock req.name = none)
    (hurl : (validateNoDuplicateRemoteURLs db req).2 = none)
    (hcount : (db.countServerVersions req.name).2 = none ∨
      (db.countServerVersions req.name).2 = some RegError.notFound)
    (hbelow : (db.countServerVersions req.name).1 < maxServerVersionsPerServer)
    (hexists : db.checkVersionExists req.name req.version = Except.ok false)
    (hlatest : (db.getCurrentLatestVersion req.name).2 = none ∨
      (db.getCurrentLatestVersion req.name).2 = some RegError.notFound)
    (hunmark : db.unmarkAsLatest req.name = none) :
    (createServerInTransaction db compareVersions publishTime req).1 =
      [DbEvent.validatePublish req, DbEvent.acquirePublishLock req.name] ++
      (validateNoDuplicateRemoteURLs db req).1 ++
      [DbEvent.countServerVersions req.name,
       DbEvent.checkVersionExists req.name req.version,
       DbEvent.getCurrentLatestVersion req.name] ++
      (if decideIsLatest compareVersions publishTime req.version
            (db.getCurrentLatestVersion req.name).1 &&
          (db.getCurrentLatestVersion req.name).1.isSome then
        [DbEvent.unmarkAsLatest req.name,
         DbEvent.createServer req (newVersionMeta publishTime
           (decideIsLatest compareVersions publishTime req.version
             (db.getCurrentLatestVersion req.name).1))]
      else
        [DbEvent.createServer req (newVersionMeta publishTime
          (decideIsLatest compareVersions publishTime req.version
            (db.getCurrentLatestVersion req.name).1))]) ∧
    (createServerInTransaction db compareVersions publishTime req).2 =
      db.createServer req (newVersionMeta publishTime
        (decideIsLatest compareVersions publishTime req.version
          (db.getCurrentLatestVersion req.name).1)) ∧
    decideIsLatest compareVersions publishTime req.version none = true ∧
    (∀ cur : ServerResponse,
      decideIsLatest compareVersions publishTime req.version (some cur) =
        decide (compareVersions req.version cur.server.version publishTime
          (match cur.meta.official with
           | some official => official.publishedAt
           | none => 0) > 0)) ∧
    (newVersionMeta publishTime
        (decideIsLatest compareVersions publishTime req.version
          (db.getCurrentLatestVersion req.name).1)).isLatest =
      decideIsLatest compareVersions publishTime req.version
        (db.getCurrentLatestVersion req.name).1 := by
  have spine := publish_success_spine db compareVersions publishTime req
    hval hlock hurl hcount hbelow hexists hlatest
  have step5 : publishDecideLatest db compareVersions publishTime req
      (db.getCurrentLatestVersion req.name).1 =
      ((if decideIsLatest compareVersions publishTime req.version
            (db.getCurrentLatestVersion req.name).1 &&
          (db.getCurrentLatestVersion req.name).1.isSome then
        [DbEvent.unmarkAsLatest req.name,
         DbEvent.createServer req (newVersionMeta publishTime
           (decideIsLatest compareVersions publishTime req.version
             (db.getCurrentLatestVersion req.name).1))]
      else
        [DbEvent.createServer req (newVersionMeta publishTime
          (decideIsLatest compareVersions publishTime req.version
            (db.getCurrentLatestVersion req.name).1))]),
       db.createServer req (newVersionMeta publishTime
         (decideIsLatest compareVersions publishTime req.version
           (db.getCurrentLatestVersion req.name).1))) := by
    simp only [publishDecideLatest]
    by_cases hb : (decideIsLatest compareVersions publishTime req.version
        (db.getCurrentLatestVersion req.name).1 &&
        (db.getCurrentLatestVersion req.name).1.isSome) = true
    · rw [if_pos hb, hunmark, if_pos hb]
    · rw [if_neg hb, if_neg hb]
  refine ⟨?_, ?_, rfl, fun cur => rfl, rfl⟩
  · rw [spine, step5]
    simp
  · rw [spine, step5]

/-- Witness for C1 on the trivial oracle: the registry is empty, so the
new row is inserted as latest without any unmark call. -/
theorem C1_publish_latest_witness :
    (createServerInTransaction dbTriv (fun _ _ _ _ => 1) 5 ⟨"com.example/s", "1.0.0", []⟩).2 =
      dbTriv.createServer ⟨"com.example/s", "1.0.0", []⟩ (newVersionMeta 5
        (decideIsLatest (fun _ _ _ _ => 1) 5 "1.0.0"
          (dbTriv.getCurrentLatestVersion "com.example/s").1)) :=
  (C1_publish_latest dbTriv (fun _ _ _ _ => 1) 5 ⟨"com.example/s", "1.0.0", []⟩
    rfl rfl rfl (Or.inl rfl) (by decide) rfl (Or.inr rfl) rfl).2.1

/-- C3: when the requested (name, version) pair already exists, publish
fails with the duplicate-version error and performs no write. -/
theorem C3_duplicate_version (db : Db)
    (compareVersions : String → String → Nat → Nat → Int) (publishTime : Nat)
    (req : ServerJSON)
    (hval : db.validatePublishRequest req = none)
    (hlock : db.acquirePublishLock req.name = none)
    (hurl : (validateNoDuplicateRemoteURLs db req).2 = none)
    (hcount : (db.countServerVersions req.name).2 = none ∨
      (db.countServerVersions req.name).2 = some RegError.notFound)
    (hbelow : (db.countServerVersions req.name).1 < maxServerVersionsPerServer)
    (hdup : db.checkVersionExists req.name req.version = Except.ok true) :
    (createServerInTransaction db compareVersions publishTime req).2 =
      Except.error RegError.invalidVersion ∧
    ∀ e ∈ (createServerInTransaction db compareVersions publishTime req).1,
      e.isWrite = false := by
  have step3 : publishAfterCount db compareVersions publishTime req
      (db.countServerVersions req.name).1 =
      ([DbEvent.checkVersionExists req.name req.version],
       Except.error RegError.invalidVersion) := by
    unfold publishAfterCount
    rw [if_neg (not_le.mpr hbelow), hdup]
    rfl
  have spine : createServerInTransaction db compareVersions publishTime req =
      (DbEvent.validatePublish req :: DbEvent.acquirePublishLock req.name ::
        ((validateNoDuplicateRemoteURLs db req).1 ++
          [DbEvent.countServerVersions req.name,
           DbEvent.checkVersionExists req.name req.version]),
       Except.error RegError.invalidVersion) := by
    have step2 : publishLocked db compareVersions publishTime req =
        ((validateNoDuplicateRemoteURLs db req).1 ++
          [DbEvent.countServerVersions req.name,
           DbEvent.checkVersionExists req.name req.version],
         Except.error RegError.invalidVersion) := by
      simp only [publishLocked]
      rw [hurl]
      rcases hcount with hc | hc <;> rw [hc] <;> simp [step3]
    unfold createServerInTransaction
    rw [hval, hlock, step2]
  rw [spine]
  refine ⟨rfl, ?_⟩
  intro e he
  simp only [List.mem_cons, List.mem_append] at he
  rcases he with he | he | he | he
  · subst he; rfl
  · subst he; rfl
  · exact checkRemotes_no_write db req.name req.remotes e he
  · simp at he
    rcases he with he | he <;> subst he <;> rfl

/-- Witness for C3 on an oracle that reports the version as existing. -/
theorem C3_duplicate_version_witness :
    (createServerInTransaction
        ({ dbTriv with checkVersionExists := fun _ _ => Except.ok true })
        (fun _ _ _ _ => 1) 5 ⟨"com.example/s", "1.0.0", []⟩).2 =
      Except.error RegError.invalidVersion :=
  (C3_duplicate_version ({ dbTriv with checkVersionExists := fun _ _ => Except.ok true })
    (fun _ _ _ _ => 1) 5 ⟨"com.example/s", "1.0.0", []⟩
    rfl rfl rfl (Or.inl rfl) (by decide) rfl).1

/-- C4: with at least `maxServerVersionsPerServer = 10000` stored
versions the publish fails with the limit error and performs no write;
with strictly fewer versions this guard does not stop the workflow,
which goes on to the duplicate-version check. -/
theorem C4_version_cap (db : Db)
    (compareVersions : String → String → Nat → Nat → Int) (publishTime : Nat)
    (req : ServerJSON)
    (hval : db.validatePublishRequest req = none)
    (hlock : db.acquirePublishLock req.name = none)
    (hurl : (validateNoDuplicateRemoteURLs db req).2 = none)
    (hcount : (db.countServerVersions req.name).2 = none ∨
      (db.countServerVersions req.name).2 = some RegError.notFound) :
    ((db.countServerVersions req.name).1 ≥ maxServerVersionsPerServer →
      (createServerInTransaction db compareVersions publishTime req).2 =
        Except.error RegError.maxServersReached ∧
      ∀ e ∈ (createServerInTransaction db compareVersions publishTime req).1,
        e.isWrite = false) ∧
    ((db.countServerVersions req.name).1 < maxServerVersionsPerServer →
      DbEvent.checkVersionExists req.name req.version ∈
        (createServerInTransaction db compareVersions publishTime req).1) ∧
    maxServerVersionsPerServer = 10000 := by
  refine ⟨?_, ?_, rfl⟩
  · intro hge
    have step3 : publishAfterCount db compareVersions publishTime req
        (db.countServerVersions req.name).1 =
        ([], Except.error RegError.maxServersReached) := by
      unfold publishAfterCount
      rw [if_pos hge]
    have spine : createServerInTransaction db compareVersions publishTime req =
        (DbEvent.validatePublish req :: DbEvent.acquirePublishLock req.name ::
          ((validateNoDuplicateRemoteURLs db req).1 ++
            [DbEvent.countServerVersions req.name]),
         Except.error RegError.maxServersReached) := by
      have step2 : publishLocked db compareVersions publishTime req =
          ((validateNoDuplicateRemoteURLs db req).1 ++
            [DbEvent.countServerVersions req.name],
           Except.error RegError.maxServersReached) := by
        simp only [publishLocked]
        rw [hurl]
        rcases hcount with hc | hc <;> rw [hc] <;> simp [step3]
      unfold createServerInTransaction
      rw [hval, hlock, step2]
    rw [spine]
    refine ⟨rfl, ?_⟩
    intro e he
    simp only [List.mem_cons, List.mem_append] at he
    rcases he with he | he | he | he
    · subst he; rfl
    · subst he; rfl
    · exact checkRemotes_no_write db req.name req.remotes e he
    · simp at he
      subst he; rfl
  · intro hlt
    have hcheck : DbEvent.checkVersionExists req.name req.version ∈
        (publishAfterCount db compareVersions publishTime req
          (db.countServerVersions req.name).1).1 := by
      unfold publishAfterCount
      rw [if_neg (not_le.mpr hlt)]
      cases db.checkVersionExists req.name req.version with
      | error e => exact List.mem_singleton.mpr rfl
      | ok versionExists =>
        cases versionExists
        · exact List.mem_cons_self _ _
        · exact List.mem_singleton.mpr rfl
    have spine : (createServerInTransaction db compareVersions publishTime req).1 =
        DbEvent.validatePublish req :: DbEvent.acquirePublishLock req.name ::
          ((validateNoDuplicateRemoteURLs db req).1 ++
            DbEvent.countServerVersions req.name ::
            (publishAfterCount db compareVersions publishTime req
              (db.countServerVersions req.name).1).1) := by
      have step2 : publishLocked db compareVersions publishTime req =
          ((validateNoDuplicateRemoteURLs db req).1 ++
            DbEvent.countServerVersions req.name ::
            (publishAfterCount db compareVersions publishTime req
              (db.countServerVersions req.name).1).1,
           (publishAfterCount db compareVersions publishTime req
             (db.countServerVersions req.name).1).2) := by
        simp only [publishLocked]
        rcases hcount with hc | hc <;> (rw [hurl, hc]) <;> simp
      unfold createServerInTransaction
      rw [hval, hlock, step2]
    rw [spine]
    simp only [List.mem_cons, List.mem_append]
    exact Or.inr (Or.inr (Or.inr (Or.inr hcheck)))

/-- Witness for C4 at the boundary: an oracle reporting exactly 10000
versions blocks the next publish; one reporting 9999 proceeds to the
duplicate check. -/
theorem C4_version_cap_witness :
    ((createServerInTransaction
          ({ dbTriv with countServerVersions := fun _ => (10000, none) })
          (fun _ _ _ _ => 1) 5 ⟨"com.example/s", "1.0.0", []⟩).2 =
        Except.error RegError.maxServersReached ∧
      ∀ e ∈ (createServerInTransaction
          ({ dbTriv with countServerVersions := fun _ => (10000, none) })
          (fun _ _ _ _ => 1) 5 ⟨"com.example/s", "1.0.0", []⟩).1, e.isWrite = false) ∧
    DbEvent.checkVersionExists "com.example/s" "1.0.0" ∈
      (createServerInTransaction
        ({ dbTriv with countServerVersions := fun _ => (9999, none) })
        (fun _ _ _ _ => 1) 5 ⟨"com.example/s", "1.0.0", []⟩).1 :=
  ⟨(C4_version_cap ({ dbTriv with countServerVersions := fun _ => (10000, none) })
      (fun _ _ _ _ => 1) 5 ⟨"com.example/s", "1.0.0", []⟩
      rfl rfl rfl (Or.inl rfl)).1 (by decide),
   (C4_version_cap ({ dbTriv with countServerVersions := fun _ => (9999, none) })
      (fun _ _ _ _ => 1) 5 ⟨"com.example/s", "1.0.0", []⟩
      rfl rfl rfl (Or.inl rfl)).2.1 (by decide)⟩

/-- `firstConflict` finds nothing iff every listed row carries the
candidate name. -/
theorem firstConflict_eq_none_iff (name : String) (l : List ServerResponse) :
    firstConflict name l = none ↔ ∀ s ∈ l, s.server.name = name := by
  induction l with
  | nil => simp [firstConflict]
  | cons a rest ih =>
    by_cases h : a.server.name = name
    · simp [firstConflict, h, ih]
    · simp [firstConflict, h]

/-- A row found by `firstConflict` is a listed row with a different
name. -/
theorem firstConflict_some_mem (name : String) (l : List ServerResponse)
    (s : ServerResponse) (h : firstConflict name l = some s) :
    s ∈ l ∧ s.server.name ≠ name := by
  induction l with
  | nil => simp [firstConflict] at h
  | cons a rest ih =>
    unfold firstConflict at h
    by_cases ha : a.server.name ≠ name
    · rw [if_pos ha] at h
      cases h
      exact ⟨List.mem_cons_self _ _, ha⟩
    · rw [if_neg ha] at h
      rcases ih h with ⟨h1, h2⟩
      exact ⟨List.mem_cons_of_mem _ h1, h2⟩

/-- No row listed for any remote URL of the descriptor carries a server
name different from the descriptor's. -/
def listedConflictFree (db : Db) (s : ServerJSON) : Prop :=
  ∀ r ∈ s.remotes, ∀ listed,
    db.listServers (urlFilter r.url) "" 1000 = Except.ok listed →
    ∀ row ∈ listed.1, row.server.name = s.name

/-- When every listing succeeds, the remote-URL check passes iff no
listed row carries a different name. -/
theorem checkRemotes_none_iff (db : Db) (name : String) (rs : List Remote)
    (hlist : ∀ r ∈ rs, ∃ listed,
      db.listServers (urlFilter r.url) "" 1000 = Except.ok listed) :
    (checkRemotes db name rs).2 = none ↔
      ∀ r ∈ rs, ∀ listed,
        db.listServers (urlFilter r.url) "" 1000 = Except.ok listed →
        ∀ row ∈ listed.1, row.server.name = name := by
  induction rs with
  | nil => simp [checkRemotes]
  | cons remote rest ih =>
    obtain ⟨listed, hl⟩ := hlist remote (List.mem_cons_self _ _)
    have hrest := fun r hr => hlist r (List.mem_cons_of_mem _ hr)
    unfold checkRemotes
    rw [hl]
    dsimp only
    rcases h2 : firstConflict name listed.1 with _ | cs
    · dsimp only
      rw [ih hrest]
      constructor
      · intro h r hr l hlr row hrow
        rcases List.mem_cons.mp hr with h1 | h1
        · subst h1
          rw [hl] at hlr
          cases hlr
          exact (firstConflict_eq_none_iff name listed.1).mp h2 row hrow
        · exact h r h1 l hlr row hrow
      · intro h r hr l hlr row hrow
        exact h r (List.mem_cons_of_mem _ hr) l hlr row hrow
    · dsimp only
      constructor
      · intro h; cases h
      · intro h
        exfalso
        obtain ⟨hmem, hne⟩ := firstConflict_some_mem name listed.1 cs h2
        exact hne (h remote (List.mem_cons_self _ _) listed hl cs hmem)

/-- When every listing succeeds, the remote-URL check either passes or
fails with a conflict error naming a remote URL of the descriptor and
the different name of a row listed for it. -/
theorem checkRemotes_error_shape (db : Db) (name : String) (rs : List Remote)
    (hlist : ∀ r ∈ rs, ∃ listed,
      db.listServers (urlFilter r.url) "" 1000 = Except.ok listed) :
    (checkRemotes db name rs).2 = none ∨
    ∃ u n, (checkRemotes db name rs).2 = some (RegError.remoteURLConflict u n) ∧
      n ≠ name ∧
      ∃ r ∈ rs, r.url = u ∧
      ∃ listed, db.listServers (urlFilter r.url) "" 1000 = Except.ok listed ∧
      ∃ row ∈ listed.1, row.server.name = n := by
  induction rs with
  | nil => exact Or.inl rfl
  | cons remote rest ih =>
    obtain ⟨listed, hl⟩ := hlist remote (List.mem_cons_self _ _)
    have hrest := fun r hr => hlist r (List.mem_cons_of_mem _ hr)
    unfold checkRemotes
    rw [hl]
    dsimp only
    rcases h2 : firstConflict name listed.1 with _ | cs
    · dsimp only
      rcases ih hrest with h | ⟨u, n, h, hn, r, hr, hu, l2, hl2, row, hrow, hname⟩
      · exact Or.inl h
      · exact Or.inr ⟨u, n, h, hn, r, List.mem_cons_of_mem _ hr, hu, l2, hl2, row, hrow, hname⟩
    · obtain ⟨hmem, hne⟩ := firstConflict_some_mem name listed.1 cs h2
      exact Or.inr ⟨remote.url, cs.server.name, rfl, hne, remote, List.mem_cons_self _ _, rfl,
        listed, hl, cs, hmem, rfl⟩

/-- C8: on a single-version status change to `active` of a currently
deleted version (all listings succeeding), the remote-URL duplicate
check is re-run before the status write: the trace interposes the check
between the lock and the write, the write happens iff the check passes,
the check passes iff no listed row for a remote URL of the version
carries a different name (so same-name rows never fail it), and a
failure is a conflict error naming such a URL and differing name. -/
theorem C8_restore_url_check (db : Db) (serverName version : String)
    (statusChange : StatusChangeRequest) (currentServer : ServerResponse)
    (official : RegistryExtensions)
    (hget : db.getServerByNameAndVersion serverName version true = Except.ok currentServer)
    (hlock : db.acquirePublishLock serverName = none)
    (hactive : statusChange.newStatus = StatusActive)
    (hoff : currentServer.meta.official = some official)
    (hdeleted : official.status = StatusDeleted)
    (hlist : ∀ r ∈ currentServer.server.remotes, ∃ listed,
      db.listServers (urlFilter r.url) "" 1000 = Except.ok listed) :
    ((updateServerStatusInTransaction db serverName version statusChange).1 =
      DbEvent.getServerByNameAndVersion serverName version true ::
      DbEvent.acquirePublishLock serverName ::
      ((validateNoDuplicateRemoteURLs db currentServer.server).1 ++
        (match (validateNoDuplicateRemoteURLs db currentServer.server).2 with
         | none => [DbEvent.setServerStatus serverName version
             statusChange.newStatus statusChange.statusMessage]
         | some _ => []))) ∧
    ((updateServerStatusInTransaction db serverName version statusChange).2 =
      (match (validateNoDuplicateRemoteURLs db currentServer.server).2 with
       | none => db.setServerStatus serverName version
           statusChange.newStatus statusChange.statusMessage
       | some e => Except.error e)) ∧
    ((validateNoDuplicateRemoteURLs db currentServer.server).2 = none ↔
      listedConflictFree db currentServer.server) ∧
    ((validateNoDuplicateRemoteURLs db currentServer.server).2 = none ∨
      ∃ u n, (validateNoDuplicateRemoteURLs db currentServer.server).2 =
          some (RegError.remoteURLConflict u n) ∧
        n ≠ currentServer.server.name ∧
        ∃ r ∈ currentServer.server.remotes, r.url = u ∧
        ∃ listed, db.listServers (urlFilter r.url) "" 1000 = Except.ok listed ∧
        ∃ row ∈ listed.1, row.server.name = n) := by
  have needs : (statusChange.newStatus == StatusActive &&
      (match currentServer.meta.official with
       | some official => official.status == StatusDeleted
       | none => false)) = true := by
    rw [hactive, hoff]
    dsimp only
    rw [hdeleted]
    rfl
  have main : updateServerStatusInTransaction db serverName version statusChange =
      (DbEvent.getServerByNameAndVersion serverName version true ::
        DbEvent.acquirePublishLock serverName ::
        (statusLocked db serverName version statusChange currentServer).1,
       (statusLocked db serverName version statusChange currentServer).2) := by
    unfold updateServerStatusInTransaction
    rw [hget, hlock]
  have hsl : statusLocked db serverName version statusChange currentServer =
      ((validateNoDuplicateRemoteURLs db currentServer.server).1 ++
        (match (validateNoDuplicateRemoteURLs db currentServer.server).2 with
         | none => [DbEvent.setServerStatus serverName version
             statusChange.newStatus statusChange.statusMessage]
         | some _ => []),
       (match (validateNoDuplicateRemoteURLs db currentServer.server).2 with
        | none => db.setServerStatus serverName version
            statusChange.newStatus statusChange.statusMessage
        | some e => Except.error e)) := by
    simp only [statusLocked, needs, if_true]
    rcases hc : (validateNoDuplicateRemoteURLs db currentServer.server).2 with _ | e <;>
      simp [hc]
  refine ⟨?_, ?_, ?_, ?_⟩
  · rw [main, hsl]
  · rw [main, hsl]
  · exact checkRemotes_none_iff db currentServer.server.name
      currentServer.server.remotes hlist
  · exact checkRemotes_error_shape db currentServer.server.name
      currentServer.server.remotes hlist

/-- Witness for C8 on the conflicting oracle: the restore fails with the
conflict error naming the adopted URL and the other server. -/
theorem C8_restore_url_check_witness :
    (updateServerStatusInTransaction dbConflict "com.example/s" "1.0.0"
        ⟨StatusActive, none⟩).2 =
      Except.error (RegError.remoteURLConflict "https://x.example/sse" "other/name") := by
  have h := (C8_restore_url_check dbConflict "com.example/s" "1.0.0" ⟨StatusActive, none⟩
    deletedServer ⟨StatusDeleted, some "gone", 1, 1, 1, false⟩ rfl rfl rfl rfl rfl
    (fun r hr => ⟨([conflictRow], ""), rfl⟩)).2.1
  rw [h]
  rfl

end Registry
